import Mathlib

namespace NBA

/-- A cell of a scraped data table: a raw string, a number, or a missing value
(pandas NaN / absent cell). -/
inductive Value where
  | vStr (s : String)
  | vNum (q : ℚ)
  | vMissing
deriving DecidableEq, Repr

/-- A data row: an association list from column name to cell value, in column
order. -/
abbrev Row := List (String × Value)

/-- Read the cell of column c in a row; an absent column reads as missing. -/
def getV (r : Row) (c : String) : Value := (r.lookup c).getD Value.vMissing

/-- Does the first character list start with the second? -/
def startsWithL : List Char → List Char → Bool
  | _, [] => true
  | [], _ :: _ => false
  | c :: cs, p :: ps => c == p && startsWithL cs ps

/-- Substring occurrence test on character lists. -/
def containsSub : List Char → List Char → Bool
  | [], pat => pat.isEmpty
  | c :: cs, pat => startsWithL (c :: cs) pat || containsSub cs pat

/-- Model of pandas Series.str.contains with a plain (non-regex) pattern:
substring containment. -/
def strContains (s pat : String) : Bool := containsSub s.data pat.data

/-- Decimal digit test on a character. -/
def isDigitCh (c : Char) : Bool := 48 ≤ c.toNat && c.toNat ≤ 57

/-- Accumulate the value of a digit run; fails on a non-digit character. -/
def parseDigitsAux : List Char → ℕ → Option ℕ
  | [], acc => some acc
  | c :: cs, acc =>
    if isDigitCh c then parseDigitsAux cs (10 * acc + (c.toNat - 48)) else none

/-- Parse a non-empty run of decimal digits. -/
def parseDigits (l : List Char) : Option ℕ :=
  if l.isEmpty then none else parseDigitsAux l 0

/-- Split a character list on the dot character. -/
def splitDot : List Char → List (List Char)
  | [] => [[]]
  | c :: cs =>
    if c == '.' then [] :: splitDot cs
    else
      match splitDot cs with
      | [] => [[c]]
      | p :: ps => (c :: p) :: ps

/-- Model of the numeric parsing done by pandas to_numeric, restricted to the
plain decimal notation appearing in the source tables: optional minus sign,
integer part, optional fractional part after one dot. Anything else fails to
parse (and to_numeric with errors set to coerce turns it into NaN). -/
def parseNum (s : String) : Option ℚ :=
  let p : ℚ × List Char :=
    match s.data with
    | '-' :: rest => (-1, rest)
    | l => (1, l)
  match splitDot p.2 with
  | [w] => (parseDigits w).map (fun n => p.1 * n)
  | [w, f] =>
    match parseDigits w, parseDigits f with
    | some wn, some fn => some (p.1 * ((wn : ℚ) + (fn : ℚ) / (10 : ℚ) ^ f.length))
    | _, _ => none
  | _ => none

/-- A DataFrame: a header (column names in order) and rows keyed by those
names. -/
structure Frame where
  cols : List String
  rows : List Row
deriving DecidableEq, Repr

/-- The empty DataFrame. -/
def emptyFrame : Frame := ⟨[], []⟩

/-- Action of DataFrame.fillna(0) on one cell. -/
def fillCell (v : Value) : Value :=
  match v with
  | Value.vMissing => Value.vNum 0
  | v => v

/-- Action of pd.to_numeric with errors set to coerce on one cell: numbers are
unchanged, strings are parsed (unparseable strings become missing), missing
stays missing. -/
def toNumericCell (v : Value) : Value :=
  match v with
  | Value.vStr s => (parseNum s).elim Value.vMissing Value.vNum
  | Value.vNum q => Value.vNum q
  | Value.vMissing => Value.vMissing

/-- fillna(0) applied to one row. -/
def fillRow (r : Row) : Row := r.map (fun p => (p.1, fillCell p.2))

/-- The numeric-coercion loop applied to one row: a cell is coerced when its
column is in the numeric list and present in the frame columns. -/
def coerceRow (frameCols numCols : List String) (r : Row) : Row :=
  r.map (fun p =>
    if numCols.contains p.1 && frameCols.contains p.1
    then (p.1, toNumericCell p.2) else p)

/-- DataFrame.fillna(0). -/
def fillna (f : Frame) : Frame := ⟨f.cols, f.rows.map fillRow⟩

/-- The loop coercing each present numeric column with pd.to_numeric. -/
def coerceFrame (numCols : List String) (f : Frame) : Frame :=
  ⟨f.cols, f.rows.map (coerceRow f.cols numCols)⟩

/-- DataFrame.rename on one row: keys found in the mapping are replaced. -/
def renameRow (m : List (String × String)) (r : Row) : Row :=
  r.map (fun p => ((m.lookup p.1).getD p.1, p.2))

/-- DataFrame.rename with a column mapping, applied only to present columns. -/
def renameFrame (m : List (String × String)) (f : Frame) : Frame :=
  ⟨f.cols.map (fun c => (m.lookup c).getD c), f.rows.map (renameRow m)⟩

/-- Column selection df[cs] on one row. -/
def selectCols (cs : List String) (r : Row) : Row :=
  cs.filterMap (fun c => (r.lookup c).map (fun v => (c, v)))

/-- Column selection df[cs]. -/
def selectFrame (cs : List String) (f : Frame) : Frame :=
  ⟨cs, f.rows.map (selectCols cs)⟩

/-- Boolean row filtering df[mask]. -/
def filterFrame (p : Row → Bool) (f : Frame) : Frame :=
  ⟨f.cols, f.rows.filter p⟩

/-- Column assignment df[c] = v on one row: overwrite in place when present,
append at the end when new. -/
def setColRow (r : Row) (c : String) (v : Value) : Row :=
  if (r.lookup c).isSome then r.map (fun p => if p.1 = c then (c, v) else p)
  else r ++ [(c, v)]

/-- Column assignment df[c] = g(row): an existing column keeps its position,
a new column is appended after the existing ones. -/
def setCol (f : Frame) (c : String) (g : Row → Value) : Frame :=
  ⟨if f.cols.contains c then f.cols else f.cols ++ [c],
   f.rows.map (fun r => setColRow r c (g r))⟩

/-- The row filter of the extractors: keep a row when its Player cell is a
present string that does not contain the substring Player (the repeated
header marker test done with str.contains). -/
def keepRow (r : Row) : Bool :=
  match getV r "Player" with
  | Value.vStr s => ! strContains s "Player"
  | _ => false

/-- column_mapping of get_basic_stats. -/
def basicColumnMapping : List (String × String) :=
  [("Tm", "Team"), ("Pos", "Position"), ("G", "Games"), ("MP", "Minutes"),
   ("PTS", "Points"), ("TRB", "Rebounds"), ("AST", "Assists"), ("STL", "Steals"),
   ("BLK", "Blocks"), ("TOV", "Turnovers"), ("FG%", "FG_Pct"), ("3P%", "3P_Pct"),
   ("FT%", "FT_Pct")]

/-- columns of get_basic_stats (the wanted canonical columns). -/
def basicColumns : List String :=
  ["Player", "Team", "Position", "Season", "Games", "Minutes", "Points",
   "Rebounds", "Assists", "Steals", "Blocks", "Turnovers", "FG_Pct", "3P_Pct",
   "FT_Pct"]

/-- column_mapping of get_advanced_stats. -/
def advancedColumnMapping : List (String × String) :=
  [("PER", "Player_Efficiency_Rating"), ("WS", "Win_Shares"),
   ("BPM", "Box_Plus_Minus"), ("USG%", "Usage_Rate"),
   ("VORP", "Value_Over_Replacement"), ("WS/48", "Win_Shares_Per_48")]

/-- columns of get_advanced_stats. -/
def advancedColumns : List String :=
  ["Player", "Player_Efficiency_Rating", "Win_Shares", "Box_Plus_Minus",
   "Usage_Rate", "Value_Over_Replacement", "Win_Shares_Per_48"]

/-- numeric_columns: the fixed list of columns coerced to numbers in the
cleanup step. -/
def numeric_columns : List String :=
  ["Minutes", "Points", "Rebounds", "Assists", "Steals", "Blocks", "Turnovers",
   "FG_Pct", "3P_Pct", "FT_Pct", "Player_Efficiency_Rating", "Win_Shares",
   "Box_Plus_Minus", "Usage_Rate", "Value_Over_Replacement",
   "Win_Shares_Per_48"]

/-- Shared body of get_basic_stats and get_advanced_stats after the page
fetch and read_html: drop rows with a missing Player or a Player containing
the header marker, rename the known columns, select the wanted columns that
are available, and fail when none is available. A raw table without a Player
column fails as well, mirroring the KeyError swallowed by the except clause. -/
def extractStats (m : List (String × String)) (wanted : List String)
    (raw : Option Frame) : Option Frame :=
  match raw with
  | none => none
  | some df =>
    if df.cols.contains "Player" then
      let df2 := renameFrame m (filterFrame keepRow df)
      let avail := wanted.filter (fun c => df2.cols.contains c)
      if avail.isEmpty then none else some (selectFrame avail df2)
    else none

/-- get_basic_stats applied to the fetched raw table (none models a failed
fetch or a missing table). -/
def get_basic_stats (raw : Option Frame) : Option Frame :=
  extractStats basicColumnMapping basicColumns raw

/-- get_advanced_stats applied to the fetched raw table. -/
def get_advanced_stats (raw : Option Frame) : Option Frame :=
  extractStats advancedColumnMapping advancedColumns raw

/-- Drop the Player key column from an advanced row before appending it to the
matching basic row. -/
def dropPlayerCol (r : Row) : Row := r.filter (fun p => ! (p.1 == "Player"))

/-- The merged rows produced from one basic row: one output row per matching
advanced row, or a single row with missing advanced cells when unmatched. -/
def joinChunk (a : Frame) (br : Row) : List Row :=
  if (a.rows.filter (fun ar => getV ar "Player" == getV br "Player")).isEmpty
  then [br ++ (a.cols.filter (fun c => ! (c == "Player"))).map
    (fun c => (c, Value.vMissing))]
  else (a.rows.filter (fun ar => getV ar "Player" == getV br "Player")).map
    (fun ar => br ++ dropPlayerCol ar)

/-- pd.merge(basic, advanced, on Player, how left): every left row is paired
with each matching right row, or with missing advanced cells when unmatched;
output columns are the left columns followed by the non-key right columns. -/
def leftJoinFrames (b a : Frame) : Frame :=
  ⟨b.cols ++ a.cols.filter (fun c => ! (c == "Player")),
   (b.rows.map (joinChunk a)).flatten⟩

/-- One pipeline stage of scrape_season, in the order the code runs them. -/
inductive Stage where
  | FetchAward
  | FetchBasic
  | FetchAdvanced
  | Merge
deriving DecidableEq, Repr

/-- The external inputs of one season: the award-page winner extraction
result, and the two fetched raw stat tables (none models any fetch,
table-location or extraction failure at the I/O boundary). -/
structure SeasonSource where
  mvpWinner : Option String
  basicRaw : Option Frame
  advRaw : Option Frame
deriving DecidableEq, Repr

/-- The MVP flag assigned to one merged row: 1 when the Player cell equals the
extracted winner name, 0 otherwise. -/
def mvpFlag (w : String) (r : Row) : Value :=
  if getV r "Player" == Value.vStr w then Value.vNum 1 else Value.vNum 0

namespace MvpScraper

/-- scrape_season of the award-tracking scraper, instrumented with the list of
stages it actually ran: MVP winner first, then basic stats, then advanced
stats, then the merge that also stamps the MVP flag and the Season year. Any
failed stage returns none immediately. -/
def scrape_season_run (year : ℤ) (src : SeasonSource) :
    Option Frame × List Stage :=
  match src.mvpWinner with
  | none => (none, [Stage.FetchAward])
  | some w =>
    match get_basic_stats src.basicRaw with
    | none => (none, [Stage.FetchAward, Stage.FetchBasic])
    | some basic =>
      match get_advanced_stats src.advRaw with
      | none => (none, [Stage.FetchAward, Stage.FetchBasic, Stage.FetchAdvanced])
      | some adv =>
        let m1 := leftJoinFrames basic adv
        let m2 := setCol m1 "MVP" (mvpFlag w)
        let m3 := setCol m2 "Season" (fun _ => Value.vNum (year : ℚ))
        (some m3,
         [Stage.FetchAward, Stage.FetchBasic, Stage.FetchAdvanced, Stage.Merge])

/-- scrape_season of the award-tracking scraper (value component). -/
def scrape_season (year : ℤ) (src : SeasonSource) : Option Frame :=
  (scrape_season_run year src).1

end MvpScraper

/-- The ascending year range of range(start, end + 1). -/
def yearList (a b : ℤ) : List ℤ :=
  (List.range (b + 1 - a).toNat).map (fun (i : ℕ) => a + (i : ℤ))

/-- Align a row to a common column list, reading absent columns as missing
(the realignment pd.concat performs). -/
def reindexRow (cs : List String) (r : Row) : Row :=
  cs.map (fun c => (c, getV r c))

/-- Union of the column lists of several frames in order of first
appearance, as pd.concat computes the output columns. -/
def unionCols : List Frame → List String
  | [] => []
  | f :: fs => f.cols ++ (unionCols fs).filter (fun c => ! f.cols.contains c)

/-- pd.concat(frames, ignore_index): rows of all frames in order, realigned
to the union of the columns. -/
def concatFrames (fs : List Frame) : Frame :=
  ⟨unionCols fs, (fs.map (fun f => f.rows.map (reindexRow (unionCols fs)))).flatten⟩

/-- The aggregate cleanup of scrape_all_seasons: fillna(0) first, then the
numeric-coercion loop over numeric_columns. -/
def cleanupFrame (f : Frame) : Frame := coerceFrame numeric_columns (fillna f)

/-- Move Season to the front, keeping the remaining columns in order (the
reorder done in main before saving). -/
def reorderSeasonFirst (f : Frame) : Frame :=
  selectFrame ("Season" :: f.cols.erase "Season") f

namespace MvpScraper

/-- scrape_all_seasons: iterate the years in ascending order, keep the
successful seasons, fail when none succeeded, otherwise concatenate and run
the cleanup (fill, then coerce). -/
def scrape_all_seasons (y1 y2 : ℤ) (src : ℤ → SeasonSource) : Option Frame :=
  if ((yearList y1 y2).filterMap (fun y => scrape_season y (src y))).isEmpty
  then none
  else some (cleanupFrame (concatFrames
    ((yearList y1 y2).filterMap (fun y => scrape_season y (src y)))))

/-- main of the award-tracking scraper up to the saved dataset: aggregate,
then put Season first. -/
def mainResult (y1 y2 : ℤ) (src : ℤ → SeasonSource) : Option Frame :=
  (scrape_all_seasons y1 y2 src).map reorderSeasonFirst

end MvpScraper

namespace Scraper2025

/-- scrape_season of the single-season scraper, instrumented with the stages
it ran: basic stats, then advanced stats, then the merge that stamps the
Season year (no award stage in this variant). -/
def scrape_season_run (year : ℤ) (src : SeasonSource) :
    Option Frame × List Stage :=
  match get_basic_stats src.basicRaw with
  | none => (none, [Stage.FetchBasic])
  | some basic =>
    match get_advanced_stats src.advRaw with
    | none => (none, [Stage.FetchBasic, Stage.FetchAdvanced])
    | some adv =>
      let m1 := leftJoinFrames basic adv
      let m2 := setCol m1 "Season" (fun _ => Value.vNum (year : ℚ))
      (some m2, [Stage.FetchBasic, Stage.FetchAdvanced, Stage.Merge])

/-- scrape_season of the single-season scraper (value component). -/
def scrape_season (year : ℤ) (src : SeasonSource) : Option Frame :=
  (scrape_season_run year src).1

/-- main of the single-season scraper up to the saved dataset: scrape season
2025, put Season first, fillna(0), then the numeric-coercion loop. -/
def mainResult (src : SeasonSource) : Option Frame :=
  (scrape_season 2025 src).map
    (fun f => coerceFrame numeric_columns (fillna (reorderSeasonFirst f)))

end Scraper2025

/-- Example raw basic table: one well-formed player row. -/
def exRawBasic : Frame :=
  ⟨["Player", "PTS"], [[("Player", Value.vStr "A"), ("PTS", Value.vStr "10")]]⟩

/-- Example raw basic table whose points cell is unparseable and which also
carries a repeated header row. -/
def exRawBasicBad : Frame :=
  ⟨["Player", "PTS"],
   [[("Player", Value.vStr "A"), ("PTS", Value.vStr "abc")],
    [("Player", Value.vStr "Player"), ("PTS", Value.vStr "PTS")]]⟩

/-- Example raw advanced table: one row matching player A. -/
def exRawAdv : Frame :=
  ⟨["Player", "PER"], [[("Player", Value.vStr "A"), ("PER", Value.vStr "21.5")]]⟩

/-- Example raw advanced table with two rows for the same player. -/
def exRawAdvDup : Frame :=
  ⟨["Player", "PER"],
   [[("Player", Value.vStr "A"), ("PER", Value.vStr "1")],
    [("Player", Value.vStr "A"), ("PER", Value.vStr "2")]]⟩

/-- Season inputs where every stage succeeds and the winner is player A. -/
def exSrcGood : SeasonSource := ⟨some "A", some exRawBasic, some exRawAdv⟩

/-- Season inputs with an unparseable numeric cell in the basic table. -/
def exSrcBadPoints : SeasonSource := ⟨some "A", some exRawBasicBad, some exRawAdv⟩

/-- Season inputs with duplicate advanced rows for one player. -/
def exSrcDup : SeasonSource := ⟨some "A", some exRawBasic, some exRawAdvDup⟩

/-- Season inputs where only the award-winner lookup fails. -/
def exSrcNoAward : SeasonSource := ⟨none, some exRawBasic, some exRawAdv⟩

/-- Season inputs where every fetch fails. -/
def exSrcAllFail : SeasonSource := ⟨none, none, none⟩

/-- Season inputs where the extracted winner name matches no player. -/
def exSrcNoMatch : SeasonSource := ⟨some "Z", some exRawBasic, some exRawAdv⟩

/-- A row whose Player is non-empty, different from the header marker, but
contains it as a substring. -/
def exMarkerishRow : Row := [("Player", Value.vStr "Gary Player Jr.")]

/-- A row with an ordinary player name. -/
def exPlainRow : Row := [("Player", Value.vStr "A")]

/-- A table holding the ordinary row and the marker-containing row. -/
def exMarkerishFrame : Frame := ⟨["Player"], [exPlainRow, exMarkerishRow]⟩

/-- Already-extracted basic frame for the join example; player B has no
advanced match. -/
def exJoinBasic : Frame :=
  ⟨["Player", "Points"],
   [[("Player", Value.vStr "A"), ("Points", Value.vNum 10)],
    [("Player", Value.vStr "B"), ("Points", Value.vNum 5)]]⟩

/-- Already-extracted advanced frame for the join example, with pairwise
distinct Player keys. -/
def exJoinAdv : Frame :=
  ⟨["Player", "Win_Shares"],
   [[("Player", Value.vStr "A"), ("Win_Shares", Value.vNum 3)]]⟩

/-- Year-indexed season inputs where every season succeeds. -/
def exSeasonsGood : ℤ → SeasonSource := fun _ => exSrcGood

/-- Year-indexed season inputs where only the year 2020 award lookup fails. -/
def exSeasonsOneBad : ℤ → SeasonSource :=
  fun y => if y == 2020 then exSrcNoAward else exSrcGood

/-- Year-indexed season inputs where every season fails. -/
def exSeasonsAllFail : ℤ → SeasonSource := fun _ => exSrcAllFail

/-- One merged frame that has a Team column. -/
def exTeamFrame : Frame :=
  ⟨["Player", "Team"], [[("Player", Value.vStr "A"), ("Team", Value.vStr "LAL")]]⟩

/-- One merged frame without a Team column. -/
def exNoTeamFrame : Frame := ⟨["Player"], [[("Player", Value.vStr "B")]]⟩

/-- The composite cell transformation every season row undergoes in the
aggregate: realignment to the concatenated columns, fillna(0), then the
numeric-coercion loop. -/
def aggRowTransform (cs : List String) (r : Row) : Row :=
  coerceRow cs numeric_columns (fillRow (reindexRow cs r))

/-- Lookup commutes with a key-preserving map of the values. -/
theorem lookup_map_keyed (g : String → Value → Value) (r : Row) (c : String) :
    (r.map (fun p => (p.1, g p.1 p.2))).lookup c = (r.lookup c).map (g c) := by
  induction r with
  | nil => rfl
  | cons p t ih =>
    obtain ⟨k, w⟩ := p
    cases hb : c == k with
    | true =>
      have hc : c = k := by simpa using hb
      subst hc
      simp [List.lookup]
    | false => simp [List.lookup, hb, ih]

/-- Lookup in a list tabulating a function over a key list. -/
theorem lookup_tabulate (h : String → Value) (cs : List String) (c : String) :
    (cs.map (fun c => (c, h c))).lookup c =
      if c ∈ cs then some (h c) else none := by
  induction cs with
  | nil => rfl
  | cons c' t ih =>
    cases hb : c == c' with
    | true =>
      have hc : c = c' := by simpa using hb
      subst hc
      simp [List.lookup]
    | false =>
      have hc : ¬ c = c' := by simpa using hb
      simp [List.lookup, hb, ih, hc]

/-- Lookup in an appended association list prefers the left part. -/
theorem lookup_append_of_some (l1 l2 : Row) (c : String) (v : Value)
    (h : l1.lookup c = some v) : (l1 ++ l2).lookup c = some v := by
  induction l1 with
  | nil => simp [List.lookup] at h
  | cons p t ih =>
    obtain ⟨k, w⟩ := p
    cases hb : c == k with
    | true =>
      rw [List.cons_append, List.lookup_cons]
      rw [List.lookup_cons] at h
      simp only [hb] at h ⊢
      exact h
    | false =>
      rw [List.cons_append, List.lookup_cons]
      rw [List.lookup_cons] at h
      simp only [hb] at h ⊢
      exact ih h

/-- Lookup in an appended association list falls through to the right part
when the key is absent on the left. -/
theorem lookup_append_of_none (l1 l2 : Row) (c : String)
    (h : l1.lookup c = none) : (l1 ++ l2).lookup c = l2.lookup c := by
  induction l1 with
  | nil => rfl
  | cons p t ih =>
    obtain ⟨k, w⟩ := p
    cases hb : c == k with
    | true =>
      rw [List.lookup_cons] at h
      simp only [hb] at h
      exact Option.noConfusion h
    | false =>
      rw [List.cons_append, List.lookup_cons]
      rw [List.lookup_cons] at h
      simp only [hb] at h ⊢
      exact ih h

/-- A key among the first components of an association list is found. -/
theorem lookup_isSome_of_key_mem (r : Row) (c : String)
    (h : c ∈ r.map Prod.fst) : (r.lookup c).isSome = true := by
  induction r with
  | nil => simp at h
  | cons p t ih =>
    obtain ⟨k, w⟩ := p
    cases hb : c == k with
    | true =>
      rw [List.lookup_cons]
      simp only [hb]
      rfl
    | false =>
      have hc : ¬ c = k := by simpa using hb
      rw [List.lookup_cons]
      simp only [hb]
      rcases List.mem_cons.mp h with h1 | h2
      · exact absurd h1 hc
      · exact ih h2

/-- fillna acts cellwise under lookup. -/
theorem lookup_fillRow (r : Row) (c : String) :
    (fillRow r).lookup c = (r.lookup c).map fillCell :=
  lookup_map_keyed (fun _ v => fillCell v) r c

/-- The coercion loop is a key-preserving cellwise map. -/
theorem coerceRow_eq_map (fc nc : List String) (r : Row) :
    coerceRow fc nc r = r.map (fun p =>
      (p.1, if nc.contains p.1 && fc.contains p.1 then toNumericCell p.2 else p.2)) := by
  unfold coerceRow
  apply List.map_congr_left
  intro p _
  cases h : nc.contains p.1 && fc.contains p.1 <;> simp [h]

/-- The coercion loop acts cellwise under lookup. -/
theorem lookup_coerceRow (fc nc : List String) (r : Row) (c : String) :
    (coerceRow fc nc r).lookup c = (r.lookup c).map
      (fun v => if nc.contains c && fc.contains c then toNumericCell v else v) := by
  rw [coerceRow_eq_map]
  exact lookup_map_keyed
    (fun c v => if nc.contains c && fc.contains c then toNumericCell v else v) r c

/-- Reading a column of a reindexed row gives the original cell when the
column is in the target column list. -/
theorem lookup_reindexRow (cs : List String) (r : Row) (c : String) :
    (reindexRow cs r).lookup c = if c ∈ cs then some (getV r c) else none :=
  lookup_tabulate (getV r) cs c

/-- Reading a selected column gives the original lookup. -/
theorem lookup_selectCols (cs : List String) (r : Row) (c : String) :
    (selectCols cs r).lookup c = if c ∈ cs then r.lookup c else none := by
  have hsel : ∀ (t : List String),
      selectCols t r = t.filterMap (fun c => (r.lookup c).map (fun v => (c, v))) :=
    fun t => rfl
  induction cs with
  | nil => rfl
  | cons c' t ih =>
    rw [hsel, List.filterMap_cons, ← hsel]
    cases hb : c == c' with
    | true =>
      have hc : c = c' := by simpa using hb
      subst hc
      cases hv : r.lookup c with
      | none => simp [hv, ih]
      | some v =>
        simp only [hv, Option.map_some', List.lookup_cons, hb]
        simp
    | false =>
      have hc : ¬ c = c' := by simpa using hb
      cases hv : r.lookup c' with
      | none => simp [ih, hc]
      | some v =>
        simp only [hv, Option.map_some', List.lookup_cons, hb]
        simp [ih, hc]

/-- Overwriting a column then reading it back gives the new value. -/
theorem lookup_overwrite (r : Row) (c : String) (v : Value) :
    (r.map (fun p => if p.1 = c then (c, v) else p)).lookup c =
      (r.lookup c).map (fun _ => v) := by
  induction r with
  | nil => rfl
  | cons p t ih =>
    obtain ⟨k, w⟩ := p
    by_cases hk : k = c
    · subst hk
      simp [List.lookup_cons]
    · have hb : (c == k) = false := by
        rw [beq_eq_false_iff_ne]
        exact fun hh => hk hh.symm
      simp [List.lookup_cons, hk, hb, ih]

/-- Overwriting one column leaves the lookup of other columns unchanged. -/
theorem lookup_overwrite_ne (r : Row) (c c' : String) (v : Value)
    (h : c' ≠ c) :
    (r.map (fun p => if p.1 = c then (c, v) else p)).lookup c' = r.lookup c' := by
  induction r with
  | nil => rfl
  | cons p t ih =>
    obtain ⟨k, w⟩ := p
    by_cases hk : k = c
    · subst hk
      have hb : (c' == k) = false := beq_eq_false_iff_ne.mpr h
      simp [List.lookup_cons, hb, ih]
    · cases hb : c' == k <;> simp [List.lookup_cons, hk, hb, ih]

/-- Setting a column then reading it back gives the assigned value. -/
theorem lookup_setColRow_self (r : Row) (c : String) (v : Value) :
    (setColRow r c v).lookup c = some v := by
  unfold setColRow
  by_cases h : (r.lookup c).isSome
  · obtain ⟨w, hw⟩ := Option.isSome_iff_exists.mp h
    rw [if_pos h, lookup_overwrite, hw]
    rfl
  · rw [if_neg h, lookup_append_of_none _ _ _ (Option.not_isSome_iff_eq_none.mp h)]
    simp [List.lookup]

/-- Setting a column leaves the other columns unchanged. -/
theorem lookup_setColRow_ne (r : Row) (c c' : String) (v : Value)
    (h : c' ≠ c) : (setColRow r c v).lookup c' = r.lookup c' := by
  unfold setColRow
  by_cases hs : (r.lookup c).isSome
  · rw [if_pos hs]
    exact lookup_overwrite_ne r c c' v h
  · rw [if_neg hs]
    cases hv : r.lookup c' with
    | some w => exact lookup_append_of_some _ _ _ _ hv
    | none =>
      rw [lookup_append_of_none _ _ _ hv]
      have hb : (c' == c) = false := beq_eq_false_iff_ne.mpr h
      simp [List.lookup, hb]

/-- getV after setting the same column. -/
theorem getV_setColRow_self (r : Row) (c : String) (v : Value) :
    getV (setColRow r c v) c = v := by
  unfold getV
  rw [lookup_setColRow_self]
  rfl

/-- getV of another column after setting one column. -/
theorem getV_setColRow_ne (r : Row) (c c' : String) (v : Value) (h : c' ≠ c) :
    getV (setColRow r c v) c' = getV r c' := by
  unfold getV
  rw [lookup_setColRow_ne _ _ _ _ h]

/-- Boolean contains on a string list agrees with membership. -/
theorem containsIff (l : List String) (c : String) : l.contains c = true ↔ c ∈ l :=
  List.elem_iff

/-- The assigned column is among the columns after assignment. -/
theorem self_mem_setCol_cols (f : Frame) (c : String) (g : Row → Value) :
    c ∈ (setCol f c g).cols := by
  unfold setCol
  by_cases h : f.cols.contains c
  · rw [if_pos h]
    exact (containsIff _ _).mp h
  · rw [if_neg h]
    exact List.mem_append.mpr (Or.inr (by simp))

/-- Column assignment only adds columns. -/
theorem mem_setCol_cols_mono (f : Frame) (c c' : String) (g : Row → Value)
    (h : c' ∈ f.cols) : c' ∈ (setCol f c g).cols := by
  unfold setCol
  by_cases hc : f.cols.contains c
  · rw [if_pos hc]
    exact h
  · rw [if_neg hc]
    exact List.mem_append.mpr (Or.inl h)

/-- The rows after a column assignment. -/
theorem setCol_rows (f : Frame) (c : String) (g : Row → Value) :
    (setCol f c g).rows = f.rows.map (fun r => setColRow r c (g r)) := rfl

/-- The rows of the cleanup: fill every cell, then run the coercion loop. -/
theorem cleanupFrame_rows (f : Frame) :
    (cleanupFrame f).rows =
      (f.rows.map fillRow).map (coerceRow f.cols numeric_columns) := rfl

/-- The cleanup keeps the column list. -/
theorem cleanupFrame_cols (f : Frame) : (cleanupFrame f).cols = f.cols := rfl

/-- The rows of a concatenation: all rows realigned, in frame order. -/
theorem concatFrames_rows (fs : List Frame) :
    (concatFrames fs).rows =
      (fs.map (fun f => f.rows.map (reindexRow (unionCols fs)))).flatten := rfl

/-- The columns of a concatenation. -/
theorem concatFrames_cols (fs : List Frame) :
    (concatFrames fs).cols = unionCols fs := rfl

/-- A numeric cell present before the cleanup survives it unchanged. -/
theorem getV_cleanuprow_num (fc : List String) (r : Row) (c : String) (q : ℚ)
    (hr : r.lookup c = some (Value.vNum q)) :
    getV (coerceRow fc numeric_columns (fillRow r)) c = Value.vNum q := by
  unfold getV
  rw [lookup_coerceRow, lookup_fillRow, hr]
  cases h : numeric_columns.contains c && fc.contains c <;>
    simp [h, fillCell, toNumericCell]

/-- A present cell of a column outside the numeric list is only filled by the
cleanup. -/
theorem getV_cleanuprow_notnum (fc : List String) (r : Row) (c : String)
    (hc : numeric_columns.contains c = false) (hr : (r.lookup c).isSome) :
    getV (coerceRow fc numeric_columns (fillRow r)) c = fillCell (getV r c) := by
  obtain ⟨v, hv⟩ := Option.isSome_iff_exists.mp hr
  unfold getV
  rw [lookup_coerceRow, lookup_fillRow, hv]
  simp only [hc, Bool.false_and]
  rfl

/-- A column of any concatenated frame is among the union columns. -/
theorem mem_unionCols_of (fs : List Frame) (f : Frame) (c : String)
    (hf : f ∈ fs) (hc : c ∈ f.cols) : c ∈ unionCols fs := by
  induction fs with
  | nil => cases hf
  | cons g t ih =>
    rcases List.mem_cons.mp hf with h1 | h2
    · subst h1
      exact List.mem_append.mpr (Or.inl hc)
    · by_cases hg : c ∈ g.cols
      · exact List.mem_append.mpr (Or.inl hg)
      · refine List.mem_append.mpr (Or.inr ?_)
        rw [List.mem_filter]
        refine ⟨ih h2, ?_⟩
        simpa using hg

/-- The iterated year range is sorted ascending. -/
theorem yearList_pairwise (a b : ℤ) :
    List.Pairwise (fun x y => x ≤ y) (yearList a b) := by
  unfold yearList
  exact List.pairwise_map.mpr
    (List.Pairwise.imp (fun hij => by omega) (List.sorted_lt_range _))

/-- Membership in the iterated year range. -/
theorem mem_yearList (a b y : ℤ) : y ∈ yearList a b ↔ a ≤ y ∧ y ≤ b := by
  unfold yearList
  simp only [List.mem_map, List.mem_range]
  constructor
  · rintro ⟨i, hi, rfl⟩
    omega
  · rintro ⟨h1, h2⟩
    exact ⟨(y - a).toNat, by omega, by omega⟩

/-- filterMap over a list where the function always succeeds is a map. -/
theorem filterMap_eq_map_getD {α β : Type} (f : α → Option β) (l : List α)
    (d : β) (h : ∀ x ∈ l, (f x).isSome) :
    l.filterMap f = l.map (fun x => (f x).getD d) := by
  induction l with
  | nil => rfl
  | cons x t ih =>
    obtain ⟨v, hv⟩ := Option.isSome_iff_exists.mp (h x (List.mem_cons_self x t))
    rw [List.filterMap_cons, List.map_cons]
    simp only [hv, Option.getD_some]
    rw [ih (fun y hy => h y (List.mem_cons_of_mem x hy))]

/-- A season whose winner lookup failed produces no frame. -/
theorem scrape_season_none_of_award (year : ℤ) (src : SeasonSource)
    (h : src.mvpWinner = none) :
    MvpScraper.scrape_season year src = none := by
  unfold MvpScraper.scrape_season MvpScraper.scrape_season_run
  rw [h]

/-- The frame of a successful award-tracking season carries the Season and
MVP columns, every row stamped with the year and a 0-or-1 MVP flag. -/
theorem mvp_scrape_season_facts (year : ℤ) (src : SeasonSource) (f : Frame)
    (h : MvpScraper.scrape_season year src = some f) :
    "Season" ∈ f.cols ∧ "MVP" ∈ f.cols ∧
    ∀ r ∈ f.rows, getV r "Season" = Value.vNum (year : ℚ) ∧
      (getV r "MVP" = Value.vNum 0 ∨ getV r "MVP" = Value.vNum 1) := by
  unfold MvpScraper.scrape_season MvpScraper.scrape_season_run at h
  cases hw : src.mvpWinner with
  | none => simp [hw] at h
  | some w =>
    cases hb : get_basic_stats src.basicRaw with
    | none => simp [hw, hb] at h
    | some basic =>
      cases ha : get_advanced_stats src.advRaw with
      | none => simp [hw, hb, ha] at h
      | some adv =>
        simp only [hw, ha, hb] at h
        have hf : setCol (setCol (leftJoinFrames basic adv) "MVP" (mvpFlag w))
            "Season" (fun _ => Value.vNum (year : ℚ)) = f := by
          exact Option.some.inj h
        subst hf
        refine ⟨self_mem_setCol_cols _ _ _,
          mem_setCol_cols_mono _ _ _ _ (self_mem_setCol_cols _ _ _), ?_⟩
        intro r hr
        rw [setCol_rows] at hr
        obtain ⟨r1, hr1, rfl⟩ := List.mem_map.mp hr
        rw [setCol_rows] at hr1
        obtain ⟨r0, hr0, rfl⟩ := List.mem_map.mp hr1
        constructor
        · exact getV_setColRow_self _ _ _
        · rw [getV_setColRow_ne _ _ _ _ (by decide), getV_setColRow_self]
          unfold mvpFlag
          by_cases hp : getV r0 "Player" == Value.vStr w
          · rw [if_pos hp]
            exact Or.inr rfl
          · rw [if_neg hp]
            exact Or.inl rfl

/-- C1 counterexample: running the full award-tracking pipeline over a single
season whose Points cell holds the unparseable string abc leaves that numeric
cell missing (NaN) in the final dataset, not 0, because fillna runs before
to_numeric. -/
theorem C1_counterexample :
    (MvpScraper.mainResult 2024 2024 (fun _ => exSrcBadPoints)).map
        (fun f => f.rows.map (fun r => getV r "Points")) =
      some [Value.vMissing] ∧
    "Points" ∈ numeric_columns := by decide

/-- C1 amended: the aggregate cleanup applies fillna first and the numeric
coercion second on every row; on a present numeric-column cell this composite
sends a missing source value to 0 and keeps numbers, but sends an unparseable
string to a missing value that then remains. -/
theorem C1_amended_cleanup :
    (∀ f : Frame, (cleanupFrame f).rows =
       f.rows.map (fun r => coerceRow f.cols numeric_columns (fillRow r))) ∧
    (∀ (fc : List String) (r : Row) (c : String),
       numeric_columns.contains c = true → fc.contains c = true →
       (r.lookup c).isSome = true →
       getV (coerceRow fc numeric_columns (fillRow r)) c =
         toNumericCell (fillCell (getV r c))) ∧
    toNumericCell (fillCell Value.vMissing) = Value.vNum 0 ∧
    (∀ q : ℚ, toNumericCell (fillCell (Value.vNum q)) = Value.vNum q) ∧
    (∀ s : String, toNumericCell (fillCell (Value.vStr s)) =
       (parseNum s).elim Value.vMissing Value.vNum) := by
  refine ⟨?_, ?_, rfl, fun q => rfl, fun s => rfl⟩
  · intro f
    rw [cleanupFrame_rows, List.map_map]
    rfl
  · intro fc r c hn hf hs
    obtain ⟨v, hv⟩ := Option.isSome_iff_exists.mp hs
    unfold getV
    rw [lookup_coerceRow, lookup_fillRow, hv]
    simp only [hn, hf, Bool.and_self]
    rfl

/-- C1 amended witness at a concrete unparseable cell. -/
theorem C1_amended_cleanup_witness :
    getV (coerceRow ["Points"] numeric_columns
        (fillRow [("Points", Value.vStr "abc")])) "Points" =
      toNumericCell (fillCell (getV [("Points", Value.vStr "abc")] "Points")) :=
  C1_amended_cleanup.2.1 ["Points"] [("Points", Value.vStr "abc")] "Points"
    (by decide) (by decide) (by decide)

/-- C2 counterexample: with both extractions succeeding but the advanced
table holding two rows for one player, the merged record set has 2 rows while
the basic-stats record set has 1 row, so the claimed row-count equality
fails. -/
theorem C2_counterexample :
    (Scraper2025.scrape_season 2025 exSrcDup).map (fun f => f.rows.length) =
      some 2 ∧
    (get_basic_stats exSrcDup.basicRaw).map (fun f => f.rows.length) =
      some 1 ∧
    (get_advanced_stats exSrcDup.advRaw).isSome = true := by decide

/-- C3 counterexample: in the award-tracking scraper a failed award lookup is
the first stage and short-circuits everything, so the stage trace is exactly
FetchAward even though the basic extraction would succeed; this trace is not
a prefix of the claimed order starting with FetchBasic. -/
theorem C3_counterexample :
    (MvpScraper.scrape_season_run 2024 exSrcNoAward).2 = [Stage.FetchAward] ∧
    ¬ ((MvpScraper.scrape_season_run 2024 exSrcNoAward).2 <+:
        [Stage.FetchBasic, Stage.FetchAdvanced, Stage.FetchAward, Stage.Merge]) ∧
    (get_basic_stats exSrcNoAward.basicRaw).isSome = true := by decide

/-- C3 amended: the award-tracking scraper runs FetchAward, FetchBasic,
FetchAdvanced, Merge in that order and any failure stops the season at that
stage, so the trace is always a prefix of that order and the season succeeds
exactly when all stages ran; the 2025 scraper does the same without the
award stage. -/
theorem C3_amended_stage_order :
    (∀ (y : ℤ) (src : SeasonSource),
      (MvpScraper.scrape_season_run y src).2 <+:
        [Stage.FetchAward, Stage.FetchBasic, Stage.FetchAdvanced, Stage.Merge] ∧
      ((MvpScraper.scrape_season_run y src).1.isSome = true ↔
        (MvpScraper.scrape_season_run y src).2 =
          [Stage.FetchAward, Stage.FetchBasic, Stage.FetchAdvanced, Stage.Merge])) ∧
    (∀ (y : ℤ) (src : SeasonSource),
      (Scraper2025.scrape_season_run y src).2 <+:
        [Stage.FetchBasic, Stage.FetchAdvanced, Stage.Merge] ∧
      ((Scraper2025.scrape_season_run y src).1.isSome = true ↔
        (Scraper2025.scrape_season_run y src).2 =
          [Stage.FetchBasic, Stage.FetchAdvanced, Stage.Merge])) := by
  constructor
  · intro y src
    unfold MvpScraper.scrape_season_run
    cases src.mvpWinner with
    | none =>
      exact ⟨⟨[Stage.FetchBasic, Stage.FetchAdvanced, Stage.Merge], rfl⟩, by simp⟩
    | some w =>
      cases get_basic_stats src.basicRaw with
      | none => exact ⟨⟨[Stage.FetchAdvanced, Stage.Merge], rfl⟩, by simp⟩
      | some basic =>
        cases get_advanced_stats src.advRaw with
        | none => exact ⟨⟨[Stage.Merge], rfl⟩, by simp⟩
        | some adv => exact ⟨⟨[], by simp⟩, by simp⟩
  · intro y src
    unfold Scraper2025.scrape_season_run
    cases get_basic_stats src.basicRaw with
    | none => exact ⟨⟨[Stage.FetchAdvanced, Stage.Merge], rfl⟩, by simp⟩
    | some basic =>
      cases get_advanced_stats src.advRaw with
      | none => exact ⟨⟨[Stage.Merge], rfl⟩, by simp⟩
      | some adv => exact ⟨⟨[], by simp⟩, by simp⟩

/-- C4 counterexample: a row whose Player is non-empty and different from the
literal header marker is nevertheless dropped by the extractor filter,
because the filter tests substring containment of the marker rather than
equality. -/
theorem C4_counterexample :
    (filterFrame keepRow exMarkerishFrame).rows = [exPlainRow] ∧
    getV exMarkerishRow "Player" = Value.vStr "Gary Player Jr." ∧
    "Gary Player Jr." ≠ "" ∧ "Gary Player Jr." ≠ "Player" := by decide

/-- C4 amended: the extractor keeps exactly the rows whose Player cell is a
present string not containing the marker substring; hence no retained row has
a missing Player or one equal to the marker (though a row merely containing
the marker inside a longer name is also dropped, and an empty-string Player
would be retained). -/
theorem C4_amended_filter (f : Frame) (r : Row) :
    (r ∈ (filterFrame keepRow f).rows ↔
      r ∈ f.rows ∧ ∃ s, getV r "Player" = Value.vStr s ∧
        strContains s "Player" = false) ∧
    ∀ r2 ∈ (filterFrame keepRow f).rows,
      getV r2 "Player" ≠ Value.vStr "Player" ∧
      getV r2 "Player" ≠ Value.vMissing := by
  have hkeep : ∀ r2 : Row, keepRow r2 = true ↔
      ∃ s, getV r2 "Player" = Value.vStr s ∧ strContains s "Player" = false := by
    intro r2
    unfold keepRow
    cases hp : getV r2 "Player" with
    | vStr s => simp [Bool.not_eq_true']
    | vNum q => simp
    | vMissing => simp
  constructor
  · rw [show (filterFrame keepRow f).rows = f.rows.filter keepRow from rfl,
      List.mem_filter, hkeep r]
  · intro r2 h2
    have hk := (List.mem_filter.mp
      (show r2 ∈ f.rows.filter keepRow from h2)).2
    obtain ⟨s, hs, hc⟩ := (hkeep r2).mp hk
    constructor
    · rw [hs]
      intro heq
      have hs2 : s = "Player" := Value.vStr.inj heq
      subst hs2
      exact absurd hc (by decide)
    · rw [hs]
      exact fun heq => Value.noConfusion heq

/-- C4 amended witness: a concrete ordinary row is retained. -/
theorem C4_amended_filter_witness :
    exPlainRow ∈ (filterFrame keepRow exMarkerishFrame).rows :=
  (C4_amended_filter exMarkerishFrame exPlainRow).1.mpr
    ⟨by decide, "A", by decide, by decide⟩

/-- C7: when every season in the requested range fails, the aggregator
returns none (the NoDataCollected outcome) and produces no dataset. -/
theorem C7_no_data_collected (y1 y2 : ℤ) (src : ℤ → SeasonSource)
    (h : ∀ y ∈ yearList y1 y2, MvpScraper.scrape_season y (src y) = none) :
    MvpScraper.scrape_all_seasons y1 y2 src = none := by
  unfold MvpScraper.scrape_all_seasons
  rw [List.filterMap_eq_nil_iff.mpr h]
  rfl

/-- C7 witness on a concrete all-failing range. -/
theorem C7_no_data_collected_witness :
    MvpScraper.scrape_all_seasons 2020 2021 exSeasonsAllFail = none :=
  C7_no_data_collected 2020 2021 exSeasonsAllFail (fun _ _ => rfl)

/-- C8: the numeric-coercion step is idempotent, at frame level and at cell
level: re-coercing an already-coerced column yields the same values. -/
theorem C8_coercion_idempotent :
    (∀ f : Frame, coerceFrame numeric_columns (coerceFrame numeric_columns f) =
      coerceFrame numeric_columns f) ∧
    (∀ v : Value, toNumericCell (toNumericCell v) = toNumericCell v) := by
  have hv : ∀ v : Value, toNumericCell (toNumericCell v) = toNumericCell v := by
    intro v
    cases v with
    | vStr s => cases h : parseNum s <;> simp [toNumericCell, h]
    | vNum q => rfl
    | vMissing => rfl
  refine ⟨?_, hv⟩
  intro f
  have hrow : ∀ r : Row,
      coerceRow f.cols numeric_columns (coerceRow f.cols numeric_columns r) =
        coerceRow f.cols numeric_columns r := by
    intro r
    rw [coerceRow_eq_map f.cols numeric_columns r,
      coerceRow_eq_map f.cols numeric_columns, List.map_map]
    apply List.map_congr_left
    intro p _
    simp only [Function.comp]
    cases h : numeric_columns.contains p.1 && f.cols.contains p.1 <;>
      simp [h, hv]
  show Frame.mk _ _ = Frame.mk _ _
  rw [Frame.mk.injEq]
  refine ⟨rfl, ?_⟩
  show ((f.rows.map (coerceRow f.cols numeric_columns)).map
    (coerceRow f.cols numeric_columns)) = f.rows.map (coerceRow f.cols numeric_columns)
  rw [List.map_map]
  apply List.map_congr_left
  intro r _
  simp only [Function.comp]
  exact hrow r

/-- A lookup fails when the key differs from every key of the list. -/
theorem lookup_eq_none_of_keys (l : Row) (c : String)
    (h : ∀ p ∈ l, p.1 ≠ c) : l.lookup c = none := by
  induction l with
  | nil => rfl
  | cons p t ih =>
    obtain ⟨k, w⟩ := p
    cases hb : c == k with
    | true =>
      have hc : c = k := by simpa using hb
      exact absurd hc.symm (h (k, w) (List.mem_cons_self _ _))
    | false =>
      rw [List.lookup_cons]
      simp only [hb]
      exact ih (fun p hp => h p (List.mem_cons_of_mem _ hp))

/-- Appending columns that never include c does not change the cell at c. -/
theorem getV_append_of_none (br t : Row) (c : String)
    (ht : t.lookup c = none) : getV (br ++ t) c = getV br c := by
  unfold getV
  cases hv : br.lookup c with
  | some v => rw [lookup_append_of_some _ _ _ _ hv]
  | none => rw [lookup_append_of_none _ _ _ hv, ht]

/-- Reduce an if over a boolean known to be true. -/
theorem if_bool_true {α : Type} (b : Bool) (h : b = true) (x y : α) :
    (if b = true then x else y) = x := by
  rw [h]
  exact if_pos rfl

/-- Reduce an if over a boolean known to be false. -/
theorem if_bool_false {α : Type} (b : Bool) (h : b = false) (x y : α) :
    (if b = true then x else y) = y := by
  rw [h]
  exact if_neg (by simp)

/-- Dropping the Player column does not change the other columns. -/
theorem lookup_dropPlayerCol_ne (r : Row) (c : String) (h : c ≠ "Player") :
    (dropPlayerCol r).lookup c = r.lookup c := by
  induction r with
  | nil => rfl
  | cons p t ih =>
    obtain ⟨k, w⟩ := p
    unfold dropPlayerCol at ih ⊢
    rw [List.filter_cons]
    by_cases hk : k = "Player"
    · have hb1 : (k == "Player") = true := by simpa using hk
      have hb2 : (c == k) = false := by
        rw [beq_eq_false_iff_ne, hk]
        exact h
      rw [if_bool_false _ (by rw [hb1]; rfl) _ _]
      rw [List.lookup_cons]
      simp only [hb2]
      exact ih
    · have hb1 : (k == "Player") = false := by
        rw [beq_eq_false_iff_ne]
        exact hk
      rw [if_bool_true _ (by rw [hb1]; rfl) _ _]
      rw [List.lookup_cons, List.lookup_cons]
      cases hb : c == k
      · exact ih
      · rfl

/-- The Player key never occurs after dropping the Player column. -/
theorem lookup_dropPlayerCol_self (r : Row) :
    (dropPlayerCol r).lookup "Player" = none := by
  apply lookup_eq_none_of_keys
  intro p hp
  have := (List.mem_filter.mp hp).2
  intro hk
  rw [hk] at this
  simp at this

/-- Every merged row reads its Player cell from the basic row it extends. -/
theorem leftJoin_player (b a : Frame) (r : Row)
    (hr : r ∈ (leftJoinFrames b a).rows) :
    ∃ br ∈ b.rows, getV r "Player" = getV br "Player" := by
  have hrows : (leftJoinFrames b a).rows = (b.rows.map (joinChunk a)).flatten := rfl
  rw [hrows] at hr
  obtain ⟨l, hl, hrl⟩ := List.mem_flatten.mp hr
  obtain ⟨br, hbr, rfl⟩ := List.mem_map.mp hl
  refine ⟨br, hbr, ?_⟩
  unfold joinChunk at hrl
  by_cases he :
      (a.rows.filter (fun ar => getV ar "Player" == getV br "Player")).isEmpty
  · rw [if_pos he] at hrl
    obtain rfl : r = br ++ (a.cols.filter (fun c => ! (c == "Player"))).map
        (fun c => (c, Value.vMissing)) := by
      simpa using hrl
    apply getV_append_of_none
    rw [lookup_tabulate]
    rw [if_neg ?_]
    intro hmem
    have := (List.mem_filter.mp hmem).2
    simp at this
  · rw [if_neg he] at hrl
    obtain ⟨ar, har, rfl⟩ := List.mem_map.mp hrl
    apply getV_append_of_none
    exact lookup_dropPlayerCol_self ar

/-- Filtering on equality of an injectively mapped value keeps at most one
element when the mapped values are pairwise distinct. -/
theorem filter_beq_length_le_one {α β : Type} [BEq β] [LawfulBEq β]
    (f : α → β) (l : List α) (hnd : (l.map f).Nodup) (v : β) :
    (l.filter (fun x => f x == v)).length ≤ 1 := by
  induction l with
  | nil => simp
  | cons x t ih =>
    rw [List.map_cons, List.nodup_cons] at hnd
    rw [List.filter_cons]
    by_cases hx : (f x == v) = true
    · rw [if_pos hx]
      have hfx : f x = v := by simpa using hx
      have hnil : t.filter (fun y => f y == v) = [] := by
        rw [List.filter_eq_nil_iff]
        intro y hy hyv
        apply hnd.1
        rw [List.mem_map]
        refine ⟨y, hy, ?_⟩
        have h1 : f y = v := by simpa using hyv
        rw [h1, hfx]
      rw [hnil]
      simp
    · rw [if_neg hx]
      exact ih hnd.2

/-- C10: a season whose winner lookup succeeded completes even when the
extracted name matches no Player of the basic record set; every merged row
then carries MVP flag 0 and no failure is reported. -/
theorem C10_no_matching_winner (year : ℤ) (src : SeasonSource) (w : String)
    (hw : src.mvpWinner = some w)
    (hb : (get_basic_stats src.basicRaw).isSome = true)
    (ha : (get_advanced_stats src.advRaw).isSome = true)
    (hnm : ((((get_basic_stats src.basicRaw).getD emptyFrame).rows).all
      (fun r => ! (getV r "Player" == Value.vStr w))) = true) :
    (MvpScraper.scrape_season year src).isSome = true ∧
    ((((MvpScraper.scrape_season year src).getD emptyFrame).rows).all
      (fun r => getV r "MVP" == Value.vNum 0)) = true := by
  obtain ⟨basic, hb2⟩ := Option.isSome_iff_exists.mp hb
  obtain ⟨adv, ha2⟩ := Option.isSome_iff_exists.mp ha
  have hrun : MvpScraper.scrape_season year src =
      some (setCol (setCol (leftJoinFrames basic adv) "MVP" (mvpFlag w))
        "Season" (fun _ => Value.vNum (year : ℚ))) := by
    unfold MvpScraper.scrape_season MvpScraper.scrape_season_run
    rw [hw, hb2, ha2]
  rw [hrun]
  refine ⟨rfl, ?_⟩
  rw [Option.getD_some, List.all_eq_true]
  intro r hr
  rw [setCol_rows] at hr
  obtain ⟨r1, hr1, rfl⟩ := List.mem_map.mp hr
  rw [setCol_rows] at hr1
  obtain ⟨r0, hr0, rfl⟩ := List.mem_map.mp hr1
  rw [beq_iff_eq, getV_setColRow_ne _ _ _ _ (by decide), getV_setColRow_self]
  unfold mvpFlag
  obtain ⟨br, hbr, hpe⟩ := leftJoin_player basic adv r0 hr0
  have hnmBr := List.all_eq_true.mp hnm br (by rw [hb2]; exact hbr)
  rw [Bool.not_eq_true', beq_eq_false_iff_ne] at hnmBr
  rw [if_neg ?_]
  rw [beq_iff_eq, hpe]
  exact hnmBr

/-- C10 witness: the concrete winner Z matches no player, the season still
succeeds with all MVP flags 0. -/
theorem C10_no_matching_winner_witness :
    (MvpScraper.scrape_season 2024 exSrcNoMatch).isSome = true ∧
    ((((MvpScraper.scrape_season 2024 exSrcNoMatch).getD emptyFrame).rows).all
      (fun r => getV r "MVP" == Value.vNum 0)) = true :=
  C10_no_matching_winner 2024 exSrcNoMatch "Z" rfl (by decide) (by decide)
    (by decide)

/-- C2 amended: the merge is the modelled pandas left join; when the advanced
Player keys are pairwise distinct every basic row produces exactly one output
row (so the row counts agree), the output columns are the basic columns
followed by the non-key advanced columns, and every advanced field is present
on every output row. Without the distinctness assumption the row count can
exceed the basic count. -/
theorem C2_amended_left_join (b a : Frame)
    (hwf : ∀ r ∈ a.rows, r.map Prod.fst = a.cols)
    (hnd : (a.rows.map (fun r => getV r "Player")).Nodup) :
    (leftJoinFrames b a).cols =
      b.cols ++ a.cols.filter (fun c => ! (c == "Player")) ∧
    (leftJoinFrames b a).rows = b.rows.map (fun br =>
      if (a.rows.filter
          (fun ar => getV ar "Player" == getV br "Player")).isEmpty
      then br ++ (a.cols.filter (fun c => ! (c == "Player"))).map
        (fun c => (c, Value.vMissing))
      else br ++ dropPlayerCol
        ((a.rows.filter
          (fun ar => getV ar "Player" == getV br "Player")).headD [])) ∧
    (leftJoinFrames b a).rows.length = b.rows.length ∧
    ((leftJoinFrames b a).rows).all (fun r =>
      (a.cols.filter (fun c => ! (c == "Player"))).all
        (fun c => (r.lookup c).isSome)) = true := by
  have hchunk : ∀ br, joinChunk a br = [
      if (a.rows.filter
          (fun ar => getV ar "Player" == getV br "Player")).isEmpty
      then br ++ (a.cols.filter (fun c => ! (c == "Player"))).map
        (fun c => (c, Value.vMissing))
      else br ++ dropPlayerCol
        ((a.rows.filter
          (fun ar => getV ar "Player" == getV br "Player")).headD [])] := by
    intro br
    unfold joinChunk
    by_cases he :
        (a.rows.filter (fun ar => getV ar "Player" == getV br "Player")).isEmpty
    · rw [if_pos he, if_pos he]
    · rw [if_neg he, if_neg he]
      have hlen := filter_beq_length_le_one (fun r => getV r "Player") a.rows
        hnd (getV br "Player")
      cases hms : a.rows.filter
          (fun ar => getV ar "Player" == getV br "Player") with
      | nil => rw [hms] at he; exact absurd rfl he
      | cons m t =>
        rw [hms] at hlen
        cases t with
        | nil => rfl
        | cons m2 t2 => simp at hlen
  have hrows : (leftJoinFrames b a).rows = (b.rows.map (joinChunk a)).flatten :=
    rfl
  have hflat : ∀ {α β : Type} (l : List α) (g : α → β),
      (l.map (fun x => [g x])).flatten = l.map g := by
    intro α β l g
    induction l with
    | nil => rfl
    | cons x t ih => simp [ih]
  have hmain : (leftJoinFrames b a).rows = b.rows.map (fun br =>
      if (a.rows.filter
          (fun ar => getV ar "Player" == getV br "Player")).isEmpty
      then br ++ (a.cols.filter (fun c => ! (c == "Player"))).map
        (fun c => (c, Value.vMissing))
      else br ++ dropPlayerCol
        ((a.rows.filter
          (fun ar => getV ar "Player" == getV br "Player")).headD [])) := by
    rw [hrows, List.map_congr_left (fun br _ => hchunk br), hflat]
  refine ⟨rfl, hmain, by rw [hmain, List.length_map], ?_⟩
  rw [List.all_eq_true]
  intro r hr
  rw [List.all_eq_true]
  intro c hc
  have hcp : c ≠ "Player" := by
    have := (List.mem_filter.mp hc).2
    intro hk
    rw [hk] at this
    simp at this
  rw [hmain] at hr
  obtain ⟨br, hbr, rfl⟩ := List.mem_map.mp hr
  by_cases he :
      (a.rows.filter (fun ar => getV ar "Player" == getV br "Player")).isEmpty
  · rw [if_pos he]
    cases hv : br.lookup c with
    | some v =>
      rw [lookup_append_of_some _ _ _ _ hv]
      rfl
    | none =>
      rw [lookup_append_of_none _ _ _ hv, lookup_tabulate, if_pos hc]
      rfl
  · rw [if_neg he]
    have hlen := filter_beq_length_le_one (fun r => getV r "Player") a.rows
      hnd (getV br "Player")
    cases hms : a.rows.filter
        (fun ar => getV ar "Player" == getV br "Player") with
    | nil => rw [hms] at he; exact absurd rfl he
    | cons m t =>
      have hm : m ∈ a.rows := by
        have : m ∈ a.rows.filter
            (fun ar => getV ar "Player" == getV br "Player") := by
          rw [hms]
          exact List.mem_cons_self _ _
        exact (List.mem_filter.mp this).1
      cases hv : br.lookup c with
      | some v =>
        rw [lookup_append_of_some _ _ _ _ hv]
        rfl
      | none =>
        rw [lookup_append_of_none _ _ _ hv]
        show ((dropPlayerCol ((m :: t).headD [])).lookup c).isSome = true
        rw [List.headD_cons, lookup_dropPlayerCol_ne m c hcp]
        apply lookup_isSome_of_key_mem
        rw [hwf m hm]
        exact (List.mem_filter.mp hc).1

/-- C2 amended witness: with distinct advanced keys the merged row count
equals the basic row count on concrete frames. -/
theorem C2_amended_left_join_witness :
    (leftJoinFrames exJoinBasic exJoinAdv).rows.length =
      exJoinBasic.rows.length :=
  (C2_amended_left_join exJoinBasic exJoinAdv (by decide) (by decide)).2.2.1

/-- C5: if the award-winner lookup fails for year Y, no row of the aggregate
dataset carries Season Y, and every row of the aggregate carries an MVP flag
that is 0 or 1 (never unset). -/
theorem C5_award_failure (y1 y2 Y : ℤ) (src : ℤ → SeasonSource)
    (hY : (src Y).mvpWinner = none) :
    MvpScraper.scrape_season Y (src Y) = none ∧
    (((MvpScraper.scrape_all_seasons y1 y2 src).getD emptyFrame).rows).all
      (fun r => (! (getV r "Season" == Value.vNum (Y : ℚ))) &&
        ((getV r "MVP" == Value.vNum 0) ||
         (getV r "MVP" == Value.vNum 1))) = true := by
  refine ⟨scrape_season_none_of_award Y (src Y) hY, ?_⟩
  cases hall : MvpScraper.scrape_all_seasons y1 y2 src with
  | none => rfl
  | some f =>
    rw [Option.getD_some, List.all_eq_true]
    intro r hr
    unfold MvpScraper.scrape_all_seasons at hall
    by_cases he : ((yearList y1 y2).filterMap
        (fun y => MvpScraper.scrape_season y (src y))).isEmpty
    · rw [if_pos he] at hall
      exact Option.noConfusion hall
    · rw [if_neg he] at hall
      have hf := (Option.some.inj hall).symm
      subst hf
      rw [cleanupFrame_rows, List.map_map] at hr
      obtain ⟨r2, hr2, rfl⟩ := List.mem_map.mp hr
      rw [concatFrames_rows] at hr2
      obtain ⟨l, hl, hrl⟩ := List.mem_flatten.mp hr2
      obtain ⟨g, hg, rfl⟩ := List.mem_map.mp hl
      obtain ⟨r3, hr3, rfl⟩ := List.mem_map.mp hrl
      obtain ⟨y, hy, hgy⟩ := List.mem_filterMap.mp hg
      obtain ⟨hSc, hMc, hfacts⟩ := mvp_scrape_season_facts y (src y) g hgy
      obtain ⟨hSeason, hMVP⟩ := hfacts r3 hr3
      have hSu := mem_unionCols_of _ g "Season" hg hSc
      have hMu := mem_unionCols_of _ g "MVP" hg hMc
      have hlookS : (reindexRow (unionCols ((yearList y1 y2).filterMap
          (fun y => MvpScraper.scrape_season y (src y)))) r3).lookup "Season" =
          some (Value.vNum (y : ℚ)) := by
        rw [lookup_reindexRow, if_pos hSu, hSeason]
      simp only [Function.comp]
      have hS := getV_cleanuprow_num
        (concatFrames ((yearList y1 y2).filterMap
          (fun y => MvpScraper.scrape_season y (src y)))).cols _ _ _ hlookS
      have hyY : y ≠ Y := by
        intro hEq
        subst hEq
        rw [scrape_season_none_of_award y (src y) hY] at hgy
        exact Option.noConfusion hgy
      rw [Bool.and_eq_true, Bool.or_eq_true, Bool.not_eq_true',
        beq_eq_false_iff_ne, beq_iff_eq, beq_iff_eq]
      constructor
      · rw [hS]
        intro hEq
        apply hyY
        have hq := Value.vNum.inj hEq
        exact_mod_cast hq
      · rcases hMVP with h0 | h1
        · left
          have hlookM : (reindexRow (unionCols ((yearList y1 y2).filterMap
              (fun y => MvpScraper.scrape_season y (src y)))) r3).lookup
              "MVP" = some (Value.vNum 0) := by
            rw [lookup_reindexRow, if_pos hMu, h0]
          exact getV_cleanuprow_num _ _ _ _ hlookM
        · right
          have hlookM : (reindexRow (unionCols ((yearList y1 y2).filterMap
              (fun y => MvpScraper.scrape_season y (src y)))) r3).lookup
              "MVP" = some (Value.vNum 1) := by
            rw [lookup_reindexRow, if_pos hMu, h1]
          exact getV_cleanuprow_num _ _ _ _ hlookM

/-- C5 witness: in a concrete range whose 2020 award lookup fails, no
aggregate row has Season 2020 and every row has a 0-or-1 MVP flag. -/
theorem C5_award_failure_witness :
    MvpScraper.scrape_season 2020 (exSeasonsOneBad 2020) = none ∧
    (((MvpScraper.scrape_all_seasons 2020 2021 exSeasonsOneBad).getD
        emptyFrame).rows).all
      (fun r => (! (getV r "Season" == Value.vNum ((2020 : ℤ) : ℚ))) &&
        ((getV r "MVP" == Value.vNum 0) ||
         (getV r "MVP" == Value.vNum 1))) = true :=
  C5_award_failure 2020 2021 2020 exSeasonsOneBad rfl

/-- C9: the fill step of the cleanup applies to every column of the
concatenated dataset, including textual columns such as Team: the final Team
column equals the pre-cleanup Team column with missing cells replaced by the
number 0, so a textual field can end up holding the numeric value 0. -/
theorem C9_fill_all_columns (fs : List Frame)
    (h : "Team" ∈ unionCols fs) :
    ((cleanupFrame (concatFrames fs)).rows).map (fun r => getV r "Team") =
      ((concatFrames fs).rows).map (fun r => fillCell (getV r "Team")) ∧
    fillCell Value.vMissing = Value.vNum 0 := by
  refine ⟨?_, rfl⟩
  rw [cleanupFrame_rows, List.map_map, List.map_map]
  apply List.map_congr_left
  intro r hr
  simp only [Function.comp]
  have hrs : (r.lookup "Team").isSome = true := by
    rw [concatFrames_rows] at hr
    obtain ⟨l, hl, hrl⟩ := List.mem_flatten.mp hr
    obtain ⟨g, hg, rfl⟩ := List.mem_map.mp hl
    obtain ⟨r3, hr3, rfl⟩ := List.mem_map.mp hrl
    rw [lookup_reindexRow, if_pos h]
    rfl
  exact getV_cleanuprow_notnum _ _ _ (by decide) hrs

/-- C9 witness: one frame lacks the Team column, and after concatenation and
cleanup its Team cells are the fill of missing cells, that is the number 0. -/
theorem C9_fill_all_columns_witness :
    ((cleanupFrame (concatFrames [exTeamFrame, exNoTeamFrame])).rows).map
        (fun r => getV r "Team") =
      ((concatFrames [exTeamFrame, exNoTeamFrame]).rows).map
        (fun r => fillCell (getV r "Team")) :=
  (C9_fill_all_columns [exTeamFrame, exNoTeamFrame] (by decide)).1

/-- C6: when every season of the inclusive range succeeds, the aggregate rows
are exactly the per-season merged rows in ascending year order, each season
block keeping its own row order and each transformed only cellwise; hence the
Season values are ascending along the aggregate. -/
theorem C6_ascending_order (y1 y2 : ℤ) (src : ℤ → SeasonSource)
    (hle : y1 ≤ y2)
    (hall : ∀ y ∈ yearList y1 y2,
      (MvpScraper.scrape_season y (src y)).isSome = true) :
    (MvpScraper.scrape_all_seasons y1 y2 src).isSome = true ∧
    ((MvpScraper.scrape_all_seasons y1 y2 src).getD emptyFrame).rows =
      ((yearList y1 y2).map (fun y =>
        (((MvpScraper.scrape_season y (src y)).getD emptyFrame).rows).map
          (aggRowTransform (unionCols ((yearList y1 y2).filterMap
            (fun y => MvpScraper.scrape_season y (src y))))))).flatten ∧
    List.Pairwise (fun r r2 => ∀ p q : ℚ,
      getV r "Season" = Value.vNum p → getV r2 "Season" = Value.vNum q →
      p ≤ q)
      (((MvpScraper.scrape_all_seasons y1 y2 src).getD emptyFrame).rows) := by
  have hfm : (yearList y1 y2).filterMap
      (fun y => MvpScraper.scrape_season y (src y)) =
      (yearList y1 y2).map
        (fun y => (MvpScraper.scrape_season y (src y)).getD emptyFrame) :=
    filterMap_eq_map_getD _ _ emptyFrame hall
  have hne : ((yearList y1 y2).filterMap
      (fun y => MvpScraper.scrape_season y (src y))).isEmpty = false := by
    rw [hfm, List.isEmpty_eq_false]
    intro hnil
    have h1 : y1 ∈ yearList y1 y2 := (mem_yearList _ _ _).mpr ⟨le_refl _, hle⟩
    have h2 := List.mem_map_of_mem
      (fun y => (MvpScraper.scrape_season y (src y)).getD emptyFrame) h1
    rw [hnil] at h2
    exact absurd h2 (List.not_mem_nil _)
  have hEq : MvpScraper.scrape_all_seasons y1 y2 src =
      some (cleanupFrame (concatFrames ((yearList y1 y2).filterMap
        (fun y => MvpScraper.scrape_season y (src y))))) := by
    unfold MvpScraper.scrape_all_seasons
    rw [if_bool_false _ hne _ _]
  have hrows2 : ((MvpScraper.scrape_all_seasons y1 y2 src).getD
      emptyFrame).rows =
      ((yearList y1 y2).map (fun y =>
        (((MvpScraper.scrape_season y (src y)).getD emptyFrame).rows).map
          (aggRowTransform (unionCols ((yearList y1 y2).filterMap
            (fun y => MvpScraper.scrape_season y (src y))))))).flatten := by
    rw [hEq, Option.getD_some, cleanupFrame_rows, List.map_map,
      concatFrames_rows, List.map_flatten, List.map_map]
    rw [hfm, List.map_map]
    congr 1
    apply List.map_congr_left
    intro y hy
    simp only [Function.comp]
    rw [List.map_map]
    apply List.map_congr_left
    intro r hr
    simp only [Function.comp]
    rfl
  have hchunkSeason : ∀ y ∈ yearList y1 y2,
      ∀ r ∈ (((MvpScraper.scrape_season y (src y)).getD emptyFrame).rows).map
        (aggRowTransform (unionCols ((yearList y1 y2).filterMap
          (fun y => MvpScraper.scrape_season y (src y))))),
      getV r "Season" = Value.vNum (y : ℚ) := by
    intro y hy r hr
    obtain ⟨r3, hr3, rfl⟩ := List.mem_map.mp hr
    have hgy : MvpScraper.scrape_season y (src y) =
        some ((MvpScraper.scrape_season y (src y)).getD emptyFrame) := by
      obtain ⟨g, hg⟩ := Option.isSome_iff_exists.mp (hall y hy)
      rw [hg]
      rfl
    obtain ⟨hSc, _, hfacts⟩ := mvp_scrape_season_facts y (src y) _ hgy
    have hgmem : (MvpScraper.scrape_season y (src y)).getD emptyFrame ∈
        (yearList y1 y2).filterMap
          (fun y => MvpScraper.scrape_season y (src y)) := by
      rw [hfm]
      exact List.mem_map_of_mem _ hy
    have hSu := mem_unionCols_of _ _ "Season" hgmem hSc
    have hlookS : (reindexRow (unionCols ((yearList y1 y2).filterMap
        (fun y => MvpScraper.scrape_season y (src y)))) r3).lookup "Season" =
        some (Value.vNum (y : ℚ)) := by
      rw [lookup_reindexRow, if_pos hSu, (hfacts r3 hr3).1]
    exact getV_cleanuprow_num _ _ _ _ hlookS
  refine ⟨by rw [hEq]; rfl, hrows2, ?_⟩
  rw [hrows2, List.pairwise_flatten]
  constructor
  · intro l hl
    obtain ⟨y, hy, rfl⟩ := List.mem_map.mp hl
    apply List.pairwise_of_forall_mem_list
    intro r hr r2 hr2 p q hp hq
    rw [hchunkSeason y hy r hr] at hp
    rw [hchunkSeason y hy r2 hr2] at hq
    rw [← Value.vNum.inj hp, ← Value.vNum.inj hq]
  · rw [List.pairwise_map]
    refine List.Pairwise.imp_of_mem ?_ (yearList_pairwise y1 y2)
    intro ya yb hya hyb hab r hr r2 hr2 p q hp hq
    rw [hchunkSeason ya hya r hr] at hp
    rw [hchunkSeason yb hyb r2 hr2] at hq
    rw [← Value.vNum.inj hp, ← Value.vNum.inj hq]
    exact_mod_cast hab

/-- C6 witness: a concrete two-season range where every season succeeds
produces an aggregate dataset. -/
theorem C6_ascending_order_witness :
    (MvpScraper.scrape_all_seasons 2020 2021 exSeasonsGood).isSome = true :=
  (C6_ascending_order 2020 2021 exSeasonsGood (by decide) (by decide)).1

end NBA
